import Mathlib

/-!
# Verification of the ray-tracing core (rookieCookies/raytracing)

Shallow embedding of the ray-scene intersection and light-transport engine.

Modelling conventions, used consistently below:
* `f32` scalars that stay finite are modelled as exact rationals (`ℚ`);
  rounding is not modelled.  Scalars that the source explicitly sets to
  `f32::INFINITY` / `f32::NEG_INFINITY` (interval and bounding-box bounds)
  are modelled by the extended rationals `FP` below.  IEEE combinations that
  would produce a NaN (`∞ - ∞`, `0 * ∞`) are given the junk value `0`; no
  theorem in this file depends on such a combination, and negative zero is
  not modelled.
* `f32::sqrt` is modelled by `sqrtQ`, which is exact exactly where the
  float computation is exact (perfect squares of rationals); every concrete
  input evaluated in a witness or counterexample below uses only perfect
  squares.
* The pseudo-random generator is, per the spec (§1, §6), an opaque seeded
  stream: a `Seed` carries oracle streams of uniform draws and of the unit
  vectors produced by the (out-of-scope) rejection sampler.
* Rust `&mut` out-parameters become returned values; a fallible `-> bool`
  plus `&mut HitRecord` becomes `Option HitRecord`; a `panic!`/
  `unimplemented!` becomes `Except String`.
-/

set_option maxRecDepth 16000
set_option maxHeartbeats 1000000

namespace Raytrace

/-- Idealized `f32` carrier: a rational, or one of the two infinities the
source stores in `Interval::EMPTY` / `Interval::UNIVERSE`. -/
inductive FP where
  | ninf : FP
  | fin (q : ℚ) : FP
  | inf : FP
deriving DecidableEq, Repr

namespace FP

/-- Order embedding of `FP` into `WithBot (WithTop ℚ)`. -/
def toE : FP → WithBot (WithTop ℚ)
  | .ninf => ⊥
  | .fin q => ((q : WithTop ℚ) : WithBot (WithTop ℚ))
  | .inf => ((⊤ : WithTop ℚ) : WithBot (WithTop ℚ))

theorem toE_injective : Function.Injective toE := by
  intro a b h
  cases a <;> cases b <;> simp [toE] at h ⊢ <;> exact h

instance : LinearOrder FP := LinearOrder.lift' toE toE_injective

instance : Zero FP := ⟨.fin 0⟩
instance : One FP := ⟨.fin 1⟩

/-- IEEE-idealized negation. -/
def neg : FP → FP
  | .ninf => .inf
  | .fin q => .fin (-q)
  | .inf => .ninf

instance : Neg FP := ⟨neg⟩

/-- IEEE-idealized addition (`∞ + (-∞)` would be NaN; junk value `0`). -/
def add : FP → FP → FP
  | .fin a, .fin b => .fin (a + b)
  | .inf, .ninf => 0
  | .ninf, .inf => 0
  | .inf, _ => .inf
  | _, .inf => .inf
  | .ninf, _ => .ninf
  | _, .ninf => .ninf

instance : Add FP := ⟨add⟩

instance : Sub FP := ⟨fun a b => a + (-b)⟩

/-- IEEE-idealized multiplication (`0 * ∞` would be NaN; junk value `0`). -/
def mul : FP → FP → FP
  | .fin a, .fin b => .fin (a * b)
  | .inf, .fin b => if b > 0 then .inf else if b < 0 then .ninf else 0
  | .fin a, .inf => if a > 0 then .inf else if a < 0 then .ninf else 0
  | .ninf, .fin b => if b > 0 then .ninf else if b < 0 then .inf else 0
  | .fin a, .ninf => if a > 0 then .ninf else if a < 0 then .inf else 0
  | .inf, .inf => .inf
  | .ninf, .ninf => .inf
  | .inf, .ninf => .ninf
  | .ninf, .inf => .ninf

instance : Mul FP := ⟨mul⟩

/-- `|x|` on the idealized floats. -/
def abs : FP → FP
  | .ninf => .inf
  | .fin q => .fin |q|
  | .inf => .inf

@[simp] theorem fin_le_fin {a b : ℚ} : (fin a ≤ fin b) ↔ a ≤ b := by
  show toE (fin a) ≤ toE (fin b) ↔ a ≤ b
  simp [toE]

@[simp] theorem fin_lt_fin {a b : ℚ} : (fin a < fin b) ↔ a < b := by
  show toE (fin a) < toE (fin b) ↔ a < b
  simp [toE]

@[simp] theorem ninf_le (a : FP) : ninf ≤ a := by
  show toE ninf ≤ toE a
  simp [toE]

@[simp] theorem le_inf (a : FP) : a ≤ inf := by
  show toE a ≤ toE inf
  cases a <;> simp [toE]

@[simp] theorem fin_add_fin (a b : ℚ) : fin a + fin b = fin (a + b) := rfl

@[simp] theorem fin_mul_fin (a b : ℚ) : fin a * fin b = fin (a * b) := rfl

@[simp] theorem fin_sub_fin (a b : ℚ) : fin a - fin b = fin (a - b) := by
  show add (fin a) (neg (fin b)) = fin (a - b)
  simp [add, neg]
  ring

@[simp] theorem neg_fin (a : ℚ) : -(fin a) = fin (-a) := rfl

theorem min_fin_fin (a b : ℚ) : min (fin a) (fin b) = fin (min a b) := by
  rcases le_total a b with h | h
  · rw [min_eq_left (fin_le_fin.mpr h), min_eq_left h]
  · rw [min_eq_right (fin_le_fin.mpr h), min_eq_right h]

theorem max_fin_fin (a b : ℚ) : max (fin a) (fin b) = fin (max a b) := by
  rcases le_total a b with h | h
  · rw [max_eq_right (fin_le_fin.mpr h), max_eq_right h]
  · rw [max_eq_left (fin_le_fin.mpr h), max_eq_left h]

@[simp] theorem min_inf_left (a : FP) : min inf a = a := min_eq_right (le_inf a)

@[simp] theorem min_inf_right (a : FP) : min a inf = a := min_eq_left (le_inf a)

@[simp] theorem max_ninf_left (a : FP) : max ninf a = a := max_eq_right (ninf_le a)

@[simp] theorem max_ninf_right (a : FP) : max a ninf = a := max_eq_left (ninf_le a)

@[simp] theorem one_mul_fp (a : FP) : (1 : FP) * a = a := by
  cases a
  case ninf => decide
  case inf => decide
  case fin q =>
    show fin (1 * q) = fin q
    rw [one_mul]

end FP

/-- Exact rational square root: agrees with `f32::sqrt` wherever the float
result is exact (perfect squares); `0` on negatives, and inexact (but
unused by any theorem) elsewhere. -/
def sqrtQ (q : ℚ) : ℚ :=
  if q ≤ 0 then 0 else (Nat.sqrt q.num.toNat : ℚ) / (Nat.sqrt q.den : ℚ)

@[simp] theorem sqrtQ_zero : sqrtQ 0 = 0 := by simp [sqrtQ]

/-- `sqrtQ` is exact on squares (where `f32::sqrt` itself is exact). -/
theorem sqrtQ_mul_self (q : ℚ) (hq : 0 ≤ q) : sqrtQ (q * q) = q := by
  rcases eq_or_lt_of_le hq with h0 | hpos
  · rw [← h0]
    simp [sqrtQ]
  · have hq2 : ¬ (q * q ≤ 0) := by
      simp only [not_le]
      positivity
    rw [sqrtQ, if_neg hq2, Rat.mul_self_num, Rat.mul_self_den]
    have htn : (q.num * q.num).toNat = q.num.natAbs * q.num.natAbs := by
      rw [← Int.natAbs_mul_self]
      exact Int.toNat_natCast _
    rw [htn, Nat.sqrt_eq, Nat.sqrt_eq]
    have hnum : ((q.num.natAbs : ℚ)) = ((q.num : ℤ) : ℚ) := by
      rw [Int.cast_natAbs]
      have h1 : |q.num| = q.num := abs_of_nonneg (Rat.num_nonneg.mpr hq)
      exact_mod_cast h1
    rw [hnum, Rat.num_div_den]

theorem sqrtQ_one : sqrtQ 1 = 1 := by
  have := sqrtQ_mul_self 1 (by norm_num)
  simpa using this

theorem sqrtQ_sixteen : sqrtQ 16 = 4 := by
  have := sqrtQ_mul_self 4 (by norm_num)
  rw [show (16 : ℚ) = 4 * 4 by norm_num]
  exact this

/-- # src/math/vec3.rs — `Vec3` (alias `Point`, `Colour`)

Three rational lanes; the source keeps a fourth SIMD lane pinned to `0`,
which every operation preserves, so it is dropped here. -/
structure Vec3 where
  x : ℚ
  y : ℚ
  z : ℚ
deriving DecidableEq, Repr

namespace Vec3

abbrev mk3 (x y z : ℚ) : Vec3 := ⟨x, y, z⟩

def ZERO : Vec3 := ⟨0, 0, 0⟩
def ONE : Vec3 := ⟨1, 1, 1⟩

instance : Add Vec3 := ⟨fun a b => ⟨a.x + b.x, a.y + b.y, a.z + b.z⟩⟩
instance : Sub Vec3 := ⟨fun a b => ⟨a.x - b.x, a.y - b.y, a.z - b.z⟩⟩
instance : Neg Vec3 := ⟨fun a => ⟨-a.x, -a.y, -a.z⟩⟩
instance : Mul Vec3 := ⟨fun a b => ⟨a.x * b.x, a.y * b.y, a.z * b.z⟩⟩

/-- `impl Mul<Vec3> for f32` (scalar * vector). -/
def smul (s : ℚ) (v : Vec3) : Vec3 := ⟨s * v.x, s * v.y, s * v.z⟩

/-- `impl Div<f32> for Vec3`: multiplies by the reciprocal, as the source. -/
def divs (v : Vec3) (s : ℚ) : Vec3 := smul (1 / s) v

def dot (a b : Vec3) : ℚ := a.x * b.x + a.y * b.y + a.z * b.z

def cross (a b : Vec3) : Vec3 :=
  ⟨a.y * b.z - a.z * b.y, a.z * b.x - a.x * b.z, a.x * b.y - a.y * b.x⟩

def length_squared (v : Vec3) : ℚ := v.dot v

def length (v : Vec3) : ℚ := sqrtQ v.length_squared

def unit (v : Vec3) : Vec3 := v.divs v.length

/-- `Vec3::near_zero`: all lanes below `1e-8` in magnitude (the constant
zero fourth lane always passes). -/
def near_zero (v : Vec3) : Bool :=
  |v.x| < 1/100000000 && |v.y| < 1/100000000 && |v.z| < 1/100000000

def reflect (v oth : Vec3) : Vec3 := v - smul (2 * v.dot oth) oth

def refract (v n : Vec3) (etaiOverEtat : ℚ) : Vec3 :=
  let cosTheta := min ((-v).dot n) 1
  let rOutPerp := smul etaiOverEtat (v + smul cosTheta n)
  let rOutParallel := smul (-(sqrtQ |1 - rOutPerp.length_squared|)) n
  rOutPerp + rOutParallel

@[simp] theorem mul_def (a b : Vec3) :
    a * b = ⟨a.x * b.x, a.y * b.y, a.z * b.z⟩ := rfl

@[simp] theorem add_def (a b : Vec3) :
    a + b = ⟨a.x + b.x, a.y + b.y, a.z + b.z⟩ := rfl

@[simp] theorem sub_def (a b : Vec3) :
    a - b = ⟨a.x - b.x, a.y - b.y, a.z - b.z⟩ := rfl

@[simp] theorem neg_def (a : Vec3) : -a = ⟨-a.x, -a.y, -a.z⟩ := rfl

theorem mul_assoc3 (a b c : Vec3) : a * b * c = a * (b * c) := by
  simp [Vec3.mk.injEq]
  refine ⟨mul_assoc _ _ _, mul_assoc _ _ _, mul_assoc _ _ _⟩

theorem one_mul3 (a : Vec3) : ONE * a = a := by
  simp [ONE]

theorem mul_zero3 (a : Vec3) : a * ZERO = ZERO := by
  simp [ZERO]

theorem add_zero3 (a : Vec3) : a + ZERO = a := by
  simp [ZERO]

end Vec3

/-- A triple of idealized floats; models an `f32x4` whose fourth lane is
handled separately (the slab test's interval trick). -/
structure FVec3 where
  x : FP
  y : FP
  z : FP
deriving DecidableEq, Repr

/-- # src/math/ray.rs — `Ray` -/
structure Ray where
  origin : Vec3
  direction : Vec3
  time : ℚ
deriving DecidableEq, Repr

namespace Ray

def at' (r : Ray) (t : ℚ) : Vec3 := r.origin + Vec3.smul t r.direction

end Ray

/-- # src/math/interval.rs — `Interval` -/
structure Interval where
  min : FP
  max : FP
deriving DecidableEq, Repr

namespace Interval

def new (min max : FP) : Interval := ⟨min, max⟩

def EMPTY : Interval := new .inf .ninf

def UNIVERSE : Interval := new .ninf .inf

/-- Modelled from the spec: `Interval::UNIT` is referenced by `Quad::hit`
but its definition is missing from src/; per the spec ("quad hit requires
the planar (alpha,beta) coordinates to lie in the closed unit interval")
it is the closed interval [0, 1]. -/
def UNIT : Interval := new (.fin 0) (.fin 1)

def from_intervals (a b : Interval) : Interval :=
  new (Min.min a.min b.min) (Max.max a.max b.max)

/-- Inclusive containment. -/
def contains (i : Interval) (x : FP) : Prop := i.min ≤ x ∧ x ≤ i.max

/-- Exclusive containment. -/
def surrounds (i : Interval) (x : FP) : Prop := i.min < x ∧ x < i.max

instance (i : Interval) (x : FP) : Decidable (i.contains x) := by
  unfold contains
  infer_instance

instance (i : Interval) (x : FP) : Decidable (i.surrounds x) := by
  unfold surrounds
  infer_instance

/-- `f32::clamp` on idealized floats. -/
def clamp (i : Interval) (x : FP) : FP :=
  if x < i.min then i.min else if x > i.max then i.max else x

def size (i : Interval) : FP := FP.abs (i.max - i.min)

end Interval

/-- # src/math/aabb.rs — `AABB`

The source stores `mins`/`maxs` as `f32x4` with the fourth lane pinned to
`1.0`; here the three axis intervals are kept and the fourth-lane trick is
written out inside the slab test. -/
structure AABB where
  x : Interval
  y : Interval
  z : Interval
deriving DecidableEq, Repr

namespace AABB

def new (x y z : Interval) : AABB := ⟨x, y, z⟩

def EMPTY : AABB := new .EMPTY .EMPTY .EMPTY

/-- Modelled from the spec: `AABB::empty()` is called by `Hittable::bvh`
for the absent right child but is missing from src/; it is the constant
empty box (`AABB::EMPTY`). -/
def empty : AABB := EMPTY

def from_points (a b : Vec3) : AABB :=
  new (if a.x ≤ b.x then .new (.fin a.x) (.fin b.x) else .new (.fin b.x) (.fin a.x))
      (if a.y ≤ b.y then .new (.fin a.y) (.fin b.y) else .new (.fin b.y) (.fin a.y))
      (if a.z ≤ b.z then .new (.fin a.z) (.fin b.z) else .new (.fin b.z) (.fin a.z))

def from_aabbs (b1 b2 : AABB) : AABB :=
  new (.from_intervals b1.x b2.x) (.from_intervals b1.y b2.y)
      (.from_intervals b1.z b2.z)

def axis_interval (b : AABB) : Nat → Interval
  | 0 => b.x
  | 1 => b.y
  | _ => b.z

/-- `longest_axis`: nested strict comparisons, ties to the later axis. -/
def longest_axis (b : AABB) : Nat :=
  if b.x.size > b.y.size then (if b.x.size > b.z.size then 0 else 2)
  else (if b.y.size > b.z.size then 1 else 2)

/-- `pad_to_minimums`: widen any axis thinner than `1e-4` by `5e-5` on
each side. -/
def pad_to_minimums (b : AABB) : AABB :=
  let delta : FP := .fin (1/10000)
  let deltaHalf : FP := .fin (1/20000)
  let px := if b.x.size < delta
            then Interval.new (b.x.min - deltaHalf) (b.x.max + deltaHalf) else b.x
  let py := if b.y.size < delta
            then Interval.new (b.y.min - deltaHalf) (b.y.max + deltaHalf) else b.y
  let pz := if b.z.size < delta
            then Interval.new (b.z.min - deltaHalf) (b.z.max + deltaHalf) else b.z
  new px py pz

/-- Modelled from the spec: `AABB::offset` is called by
`Hittable::calc_aabb` (Move branch) but is missing from src/; per spec
§4.3 the `Move` node shifts its child's bounds by the fixed offset. -/
def offset (b : AABB) (o : Vec3) : AABB :=
  new (.new (b.x.min + .fin o.x) (b.x.max + .fin o.x))
      (.new (b.y.min + .fin o.y) (b.y.max + .fin o.y))
      (.new (b.z.min + .fin o.z) (b.z.max + .fin o.z))

/-- The shared lane computation of `AABB::hit` and `AABBx2::hit` (the
source writes it twice, lane for lane): per-axis `t1 = (mins - origin) *
inv_dir` and `t2 = (maxs - origin) * inv_dir`, with the fourth lane
carrying `(1 - 0) * ray_t.min` resp. `(1 - 0) * ray_t.max`; then
`reduce_max` of the lane minima and `reduce_min` of the lane maxima. -/
def slab (b : AABB) (origin : Vec3) (invDir : FVec3) (rayT : Interval) :
    FP × FP :=
  let t1x := (b.x.min - .fin origin.x) * invDir.x
  let t1y := (b.y.min - .fin origin.y) * invDir.y
  let t1z := (b.z.min - .fin origin.z) * invDir.z
  let t1w := ((1 : FP) - (0 : FP)) * rayT.min
  let t2x := (b.x.max - .fin origin.x) * invDir.x
  let t2y := (b.y.max - .fin origin.y) * invDir.y
  let t2z := (b.z.max - .fin origin.z) * invDir.z
  let t2w := ((1 : FP) - (0 : FP)) * rayT.max
  (max (max (max (min t1x t2x) (min t1y t2y)) (min t1z t2z)) (min t1w t2w),
   min (min (min (max t1x t2x) (max t1y t2y)) (max t1z t2z)) (max t1w t2w))

/-- `AABB::hit`: the slab test.  The mutated `ray_t` is returned alongside
the hit flag `ray_t.min <= ray_t.max`. -/
def hit (b : AABB) (ray : Ray) (invDir : FVec3) (rayT : Interval) :
    Interval × Bool :=
  let r := slab b ray.origin invDir rayT
  (Interval.new r.1 r.2, decide (r.1 ≤ r.2))

end AABB

/-- The reciprocal `1.0 / d` as `f32` computes it (`1/0 = +inf`; negative
zero is not modelled). -/
def inv32 (d : ℚ) : FP := if d = 0 then .inf else .fin d⁻¹

/-- # src/math/aabb.rs — `AABBx2`

The source packs two boxes' lanes into `f32x8` vectors; the packing is
lossless (`aabb1`/`aabb2` recover the boxes), so the pair is kept. -/
structure AABBx2 where
  b1 : AABB
  b2 : AABB
deriving DecidableEq, Repr

namespace AABBx2

def new (aabb1 aabb2 : AABB) : AABBx2 := ⟨aabb1, aabb2⟩

def aabb1 (p : AABBx2) : AABB := p.b1

def aabb2 (p : AABBx2) : AABB := p.b2

/-- `AABBx2::hit`: computes the inverse direction itself, then runs the
same lane computation as `AABB::hit` on both boxes. -/
def hit (p : AABBx2) (ray : Ray) (rayT : Interval) :
    (Interval × Bool) × (Interval × Bool) :=
  let invDir : FVec3 := ⟨inv32 ray.direction.x, inv32 ray.direction.y,
                         inv32 ray.direction.z⟩
  let l := AABB.slab p.b1 ray.origin invDir rayT
  let r := AABB.slab p.b2 ray.origin invDir rayT
  ((Interval.new l.1 l.2, decide (l.1 ≤ l.2)),
   (Interval.new r.1 r.2, decide (r.1 ≤ r.2)))

end AABBx2

/-- Modelled from the spec: the PRNG's bit-level algorithm is out of scope
("treated as an opaque seeded stream producing uniform floats in [0,1)",
spec §1), and `Vec3::random_unit`'s rejection sampler consumes it in a
data-dependent way.  A `Seed` therefore carries two oracle streams — the
uniform draws handed out by `Seed::next_f32` and the unit vectors produced
by `Vec3::random_unit` — with cursors advanced on every draw. -/
structure Seed where
  f32s : Nat → ℚ
  units : Nat → Vec3
  fIdx : Nat
  uIdx : Nat

namespace Seed

def next_f32 (s : Seed) : ℚ × Seed :=
  (s.f32s s.fIdx, { s with fIdx := s.fIdx + 1 })

/-- `Vec3::random_unit`, as an oracle draw (see `Seed`). -/
def random_unit (s : Seed) : Vec3 × Seed :=
  (s.units s.uIdx, { s with uIdx := s.uIdx + 1 })

end Seed

/-- Oracle for the `f32` trigonometric primitives (transcendental, hence
not representable exactly in ℚ; no theorem depends on their values).
`piQ` stands for the (rational) `f32` value of `PI`. -/
structure Trig where
  sin : ℚ → ℚ
  cos : ℚ → ℚ
  tan : ℚ → ℚ
  acos : ℚ → ℚ
  atan2 : ℚ → ℚ → ℚ
  piQ : ℚ

/-- An `image::Rgb32FImage`: dimensions plus a pixel lookup. -/
structure ImageModel where
  width : Nat
  height : Nat
  pixel : Nat → Nat → ℚ × ℚ × ℚ

/-- `Interval::new(0.0, 1.0).clamp(x)` on finite floats. -/
def clampUnit (q : ℚ) : ℚ := if q < 0 then 0 else if q > 1 then 1 else q

/-- `f32 as u32` for the non-negative inputs produced by the clamped
texture coordinates (truncation). -/
def ratToU32 (q : ℚ) : Nat := q.floor.toNat

/-- # src/texture.rs — `Texture` / `TextureKind`

Checkerboard/Image hold references into an arena; here the referenced
textures are stored inline (the tree is immutable).  Perlin noise is out
of scope (spec §1: an opaque `turbulence(point, depth) -> f32` contract),
so a noise texture carries its turbulence function. -/
inductive Texture where
  | solidColour (c : Vec3) : Texture
  | checkerboard (invScale : ℚ) (even odd : Texture) : Texture
  | image (img : ImageModel) : Texture
  | noiseTexture (turb : Vec3 → Nat → ℚ) (scale : ℚ) : Texture
  | notFound : Texture

namespace Texture

/-- `Texture::value`.  Note the `NotFound` branch: it returns
`Colour::ZERO`, it does not panic. -/
def value (trig : Trig) : Texture → ℚ → ℚ → Vec3 → Vec3
  | solidColour c, _, _, _ => c
  | checkerboard invScale even odd, u, v, p =>
      let sum : Int := ⌊invScale * p.x⌋ + ⌊invScale * p.y⌋ + ⌊invScale * p.z⌋
      let isEven := sum % 2 == 0
      if isEven then even.value trig u v p else odd.value trig u v p
  | image img, u, v, _ =>
      let u := clampUnit u
      let v := 1 - clampUnit v
      let i := ratToU32 (u * ((img.width - 1 : Nat) : ℚ))
      let j := ratToU32 (v * ((img.height - 1 : Nat) : ℚ))
      let px := img.pixel i j
      ⟨px.1 ^ 2, px.2.1 ^ 2, px.2.2 ^ 2⟩
  | noiseTexture turb scale, _, _, p =>
      Vec3.smul (1 + trig.sin (scale * p.z + 10 * turb p 7)) ⟨1/2, 1/2, 1/2⟩
  | notFound, _, _, _ => Vec3.ZERO

end Texture

/-- # src/material.rs — `MaterialKind` (with `NotFound` the `Default`). -/
inductive MaterialKind where
  | lambertian : MaterialKind
  | metal (fuzzRadius : ℚ) : MaterialKind
  | dielectric (refractionIndex : ℚ) : MaterialKind
  | diffuseLight : MaterialKind
  | isotropic : MaterialKind
  | notFound : MaterialKind

/-- # src/material.rs — `Material`. -/
structure Material where
  texture : Texture
  kind : MaterialKind

/-- `#[derive(Default)]`: the `NotFound` placeholders. -/
def Material.default : Material := ⟨Texture.notFound, MaterialKind.notFound⟩

/-- # src/hittable.rs — `HitRecord` (the traversal scratch value; the
`&mut` overwrite-in-place protocol becomes plain values here). -/
structure HitRecord where
  point : Vec3
  normal : Vec3
  t : ℚ
  front_face : Bool
  material : Material
  u : ℚ
  v : ℚ

def HitRecord.default : HitRecord :=
  ⟨Vec3.ZERO, Vec3.ZERO, 0, false, Material.default, 0, 0⟩

/-- `HitRecord::set_face_normal`. -/
def HitRecord.set_face_normal (rec : HitRecord) (ray : Ray)
    (outwardNormal : Vec3) : HitRecord :=
  let ff := ray.direction.dot outwardNormal < 0
  { rec with front_face := ff,
             normal := if ff then outwardNormal else -outwardNormal }

/-- Schlick's reflectance approximation (`fn reflectance`). -/
def reflectance (cos rr : ℚ) : ℚ :=
  let r0 := (1 - rr) / (1 + rr)
  let r0 := r0 * r0
  r0 + (1 - r0) * (1 - cos) ^ 5

namespace Material

/-- `Material::scatter`.  `unimplemented!()` on `NotFound` becomes
`Except.error`; the seed is threaded explicitly, with the `Dielectric`
branch drawing only when `cannot_refract` short-circuits to false, as the
source's `||` does. -/
def scatter (trig : Trig) (m : Material) (seed : Seed) (rayIn : Ray)
    (rec : HitRecord) : Except String (Option (Ray × Vec3) × Seed) :=
  match m.kind with
  | .lambertian =>
      let (rv, s) := seed.random_unit
      let scatterDir := rec.normal + rv
      let scatterDir := if scatterDir.near_zero then rec.normal else scatterDir
      let scattered : Ray := ⟨rec.point, scatterDir, rayIn.time⟩
      .ok (some (scattered, m.texture.value trig rec.u rec.v rec.point), s)
  | .metal fuzzRadius =>
      let fuzzRadius := min fuzzRadius 1
      let reflected := rayIn.direction.unit.reflect rec.normal
      let (rv, s) := seed.random_unit
      let scattered : Ray := ⟨rec.point, reflected + Vec3.smul fuzzRadius rv,
                              rayIn.time⟩
      if scattered.direction.dot rec.normal > 0 then
        .ok (some (scattered, m.texture.value trig rec.u rec.v rec.point), s)
      else
        .ok (none, s)
  | .dielectric refractionIndex =>
      let attenuation := m.texture.value trig rec.u rec.v rec.point
      let refrRatio := if rec.front_face then 1 / refractionIndex
                       else refractionIndex
      let unitDir := rayIn.direction.unit
      let cosTheta := min ((-unitDir).dot rec.normal) 1
      let sinTheta := sqrtQ (1 - cosTheta * cosTheta)
      let cannotRefract := refrRatio * sinTheta > 1
      if cannotRefract then
        .ok (some (⟨rec.point, unitDir.reflect rec.normal, rayIn.time⟩,
                   attenuation), seed)
      else
        let (r, s) := seed.next_f32
        if reflectance cosTheta refrRatio > r then
          .ok (some (⟨rec.point, unitDir.reflect rec.normal, rayIn.time⟩,
                     attenuation), s)
        else
          .ok (some (⟨rec.point, unitDir.refract rec.normal refrRatio,
                      rayIn.time⟩, attenuation), s)
  | .isotropic =>
      let (rv, s) := seed.random_unit
      .ok (some (⟨rec.point, rv, rayIn.time⟩,
                 m.texture.value trig rec.u rec.v rec.point), s)
  | .diffuseLight => .ok (none, seed)
  | .notFound => .error "not implemented"

/-- `Material::emitted`. -/
def emitted (trig : Trig) (m : Material) (u v : ℚ) (p : Vec3) : Vec3 :=
  match m.kind with
  | .diffuseLight => m.texture.value trig u v p
  | _ => Vec3.ZERO

end Material

/-- `fn get_sphere_uv`: spherical coordinates of a unit-sphere point, via
the trigonometric oracle. -/
def get_sphere_uv (trig : Trig) (p : Vec3) : ℚ × ℚ :=
  let theta := trig.acos (-p.y)
  let phi := trig.atan2 (-p.z) p.x + trig.piQ
  (phi / (2 * trig.piQ), theta / trig.piQ)

/-- # src/hittable.rs — `Sphere`. -/
structure Sphere where
  centre : Vec3
  radius : ℚ
  material : Material

/-- The quadratic discriminant `half_b² - a·c` that `Sphere::hit`
computes. -/
def Sphere.discriminant (s : Sphere) (ray : Ray) : ℚ :=
  let oc := ray.origin - s.centre
  let a := ray.direction.length_squared
  let half_b := oc.dot ray.direction
  let c := oc.length_squared - s.radius * s.radius
  half_b * half_b - a * c

/-- `Sphere::hit`.  The quadratic test: negative discriminant is an early
miss; otherwise the nearer root is tried first, each root accepted only
when `t.surrounds(root)` (strict bounds). -/
def Sphere.hit (trig : Trig) (s : Sphere) (ray : Ray) (t : Interval)
    (rec : HitRecord) : Option HitRecord :=
  let oc := ray.origin - s.centre
  let a := ray.direction.length_squared
  let half_b := oc.dot ray.direction
  let c := oc.length_squared - s.radius * s.radius
  let discriminant := half_b * half_b - a * c
  if discriminant < 0 then none
  else
    let discriminantSqrt := sqrtQ discriminant
    let root1 := (-half_b - discriminantSqrt) / a
    let root := if t.surrounds (.fin root1) then some root1
                else
                  let root2 := (-half_b + discriminantSqrt) / a
                  if t.surrounds (.fin root2) then some root2 else none
    match root with
    | none => none
    | some root =>
        let point := ray.at' root
        let outwardNormal := (point - s.centre).divs s.radius
        let uv := get_sphere_uv trig outwardNormal
        some (HitRecord.set_face_normal
          { rec with t := root, point := point, u := uv.1, v := uv.2,
                     material := s.material } ray outwardNormal)

/-- # src/hittable.rs — `MovingSphere` (centre stored as a `Ray`). -/
structure MovingSphere where
  centre : Ray
  radius : ℚ
  material : Material

def MovingSphere.new (centre1 centre2 : Vec3) (radius : ℚ)
    (material : Material) : MovingSphere :=
  ⟨⟨centre1, centre2 - centre1, 0⟩, radius, material⟩

/-- The quadratic discriminant `MovingSphere::hit` computes (against the
centre interpolated at the ray's time). -/
def MovingSphere.discriminant (s : MovingSphere) (ray : Ray) : ℚ :=
  let currentCentre := s.centre.at' ray.time
  let oc := ray.origin - currentCentre
  let a := ray.direction.length_squared
  let half_b := oc.dot ray.direction
  let c := oc.length_squared - s.radius * s.radius
  half_b * half_b - a * c

/-- `MovingSphere::hit`: as `Sphere::hit` against the centre interpolated
at the ray's time. -/
def MovingSphere.hit (trig : Trig) (s : MovingSphere) (ray : Ray)
    (t : Interval) (rec : HitRecord) : Option HitRecord :=
  let currentCentre := s.centre.at' ray.time
  let oc := ray.origin - currentCentre
  let a := ray.direction.length_squared
  let half_b := oc.dot ray.direction
  let c := oc.length_squared - s.radius * s.radius
  let discriminant := half_b * half_b - a * c
  if discriminant < 0 then none
  else
    let discriminantSqrt := sqrtQ discriminant
    let root1 := (-half_b - discriminantSqrt) / a
    let root := if t.surrounds (.fin root1) then some root1
                else
                  let root2 := (-half_b + discriminantSqrt) / a
                  if t.surrounds (.fin root2) then some root2 else none
    match root with
    | none => none
    | some root =>
        let point := ray.at' root
        let outwardNormal := (point - currentCentre).divs s.radius
        let uv := get_sphere_uv trig outwardNormal
        some (HitRecord.set_face_normal
          { rec with t := root, point := point, u := uv.1, v := uv.2,
                     material := s.material } ray outwardNormal)

/-- # src/hittable.rs — `Quad` (precomputed plane data). -/
structure Quad where
  q : Vec3
  u : Vec3
  v : Vec3
  w : Vec3
  normal : Vec3
  d : ℚ
  material : Material

def Quad.new (q u v : Vec3) (material : Material) : Quad :=
  let n := u.cross v
  let normal := n.unit
  let d := normal.dot q
  let w := n.divs (n.dot n)
  ⟨q, u, v, w, normal, d, material⟩

/-- The planar alpha coordinate a `Quad::hit` at parameter `t` computes. -/
def Quad.alpha (qd : Quad) (ray : Ray) (t : ℚ) : ℚ :=
  qd.w.dot (((ray.at' t) - qd.q).cross qd.v)

/-- The planar beta coordinate a `Quad::hit` at parameter `t` computes. -/
def Quad.beta (qd : Quad) (ray : Ray) (t : ℚ) : ℚ :=
  qd.w.dot (qd.u.cross ((ray.at' t) - qd.q))

/-- The plane-intersection parameter `t = (d - normal·origin) / denom`
that `Quad::hit` computes. -/
def Quad.tHit (qd : Quad) (ray : Ray) : ℚ :=
  (qd.d - qd.normal.dot ray.origin) / (qd.normal.dot ray.direction)

/-- `Quad::hit`: parallel rays (`|denom| < 1e-8`) miss; `t` must satisfy
the inclusive `ray_t.contains`; the planar coordinates must land in the
closed unit square. -/
def Quad.hit (qd : Quad) (ray : Ray) (rayT : Interval) (rec : HitRecord) :
    Option HitRecord :=
  let denom := qd.normal.dot ray.direction
  if |denom| < 1/100000000 then none
  else
    let t := qd.tHit ray
    if ¬ rayT.contains (.fin t) then none
    else
      let intersection := ray.at' t
      let alpha := qd.alpha ray t
      let beta := qd.beta ray t
      if ¬ Interval.UNIT.contains (.fin alpha) ∨
         ¬ Interval.UNIT.contains (.fin beta) then none
      else
        some (HitRecord.set_face_normal
          { rec with t := t, u := alpha, v := beta, point := intersection,
                     material := qd.material } ray qd.normal)

/-- # src/hittable.rs — `Hittable` / `HittableKind`.

Arena references become owned children.  The `BVH` variant's
`right : Option<&Hittable>` is split into the two constructors `bvhNode`
(right present) and `bvhLeaf` (right absent); `ConstantMedium` is inlined
into its constructor. -/
inductive Hittable where
  | sphere (s : Sphere) : Hittable
  | movingSphere (s : MovingSphere) : Hittable
  | quad (q : Quad) : Hittable
  | constantMedium (phase_function : Material) (boundary : Hittable)
      (neg_inv_density : ℚ) : Hittable
  | bvhNode (aabbs : AABBx2) (left : Hittable) (right : Hittable) : Hittable
  | bvhLeaf (aabbs : AABBx2) (left : Hittable) : Hittable
  | move (obj : Hittable) (offset : Vec3) : Hittable
  | rotateY (obj : Hittable) (sin cos : ℚ) : Hittable
  | list (items : List Hittable) : Hittable

namespace Hittable

/-- `AABB::from_points` instantiated at the `±INFINITY` accumulator points
the `RotateY` branch of `calc_aabb` feeds through it (same comparison
structure, `FP`-valued). -/
def fromPointsF (a b : FVec3) : AABB :=
  AABB.new (if a.x ≤ b.x then .new a.x b.x else .new b.x a.x)
           (if a.y ≤ b.y then .new a.y b.y else .new b.y a.y)
           (if a.z ≤ b.z then .new a.z b.z else .new b.z a.z)

/-- One corner/tester step of the `RotateY` branch: corner `(i,j,k)` of
the child box rotated into world space. -/
def rotCorner (bbox : AABB) (sin cos : ℚ) (i j k : ℚ) : FVec3 :=
  let x := .fin i * bbox.x.max + .fin (1 - i) * bbox.x.min
  let y := .fin j * bbox.y.max + .fin (1 - j) * bbox.y.min
  let z := .fin k * bbox.z.max + .fin (1 - k) * bbox.z.min
  ⟨.fin cos * x + .fin sin * z, y, .fin (-sin) * x + .fin cos * z⟩

def minF3 (a b : FVec3) : FVec3 := ⟨min a.x b.x, min a.y b.y, min a.z b.z⟩

def maxF3 (a b : FVec3) : FVec3 := ⟨max a.x b.x, max a.y b.y, max a.z b.z⟩

/-- `Hittable::calc_aabb`. -/
def calc_aabb : Hittable → AABB
  | sphere s =>
      let rvec : Vec3 := ⟨s.radius, s.radius, s.radius⟩
      AABB.from_points (s.centre - rvec) (s.centre + rvec)
  | movingSphere s =>
      let rvec : Vec3 := ⟨s.radius, s.radius, s.radius⟩
      let box1 := AABB.from_points (s.centre.at' 0 - rvec) (s.centre.at' 0 + rvec)
      let box2 := AABB.from_points (s.centre.at' 1 - rvec) (s.centre.at' 1 + rvec)
      AABB.from_aabbs box1 box2
  | quad qd =>
      let bboxDiag1 := AABB.from_points qd.q (qd.q + qd.u + qd.v)
      let bboxDiag2 := AABB.from_points (qd.q + qd.u) (qd.q + qd.v)
      AABB.from_aabbs bboxDiag1 bboxDiag2
  | bvhNode aabbs _ _ => AABB.from_aabbs aabbs.aabb1 aabbs.aabb2
  | bvhLeaf aabbs _ => aabbs.aabb1
  | constantMedium _ boundary _ => boundary.calc_aabb
  | move obj offset => (calc_aabb obj).offset offset
  | rotateY obj sin cos =>
      let bbox := obj.calc_aabb
      let corners := [rotCorner bbox sin cos 0 0 0, rotCorner bbox sin cos 0 0 1,
                      rotCorner bbox sin cos 0 1 0, rotCorner bbox sin cos 0 1 1,
                      rotCorner bbox sin cos 1 0 0, rotCorner bbox sin cos 1 0 1,
                      rotCorner bbox sin cos 1 1 0, rotCorner bbox sin cos 1 1 1]
      let mn := corners.foldl minF3 ⟨.inf, .inf, .inf⟩
      let mx := corners.foldl maxF3 ⟨.ninf, .ninf, .ninf⟩
      fromPointsF mn mx
  | list items =>
      items.attach.foldl
        (fun acc h => AABB.from_aabbs acc (calc_aabb h.1)) AABB.EMPTY
termination_by h => sizeOf h
decreasing_by
  all_goals simp_wf
  all_goals first
    | omega
    | (have hs := List.sizeOf_lt_of_mem h.2; omega)

/-- The bounding-box fold at the top of `Hittable::bvh` (also the `List`
branch of `calc_aabb`). -/
def unionAabb (hittables : List Hittable) : AABB :=
  hittables.foldl (fun acc l => AABB.from_aabbs acc l.calc_aabb) AABB.EMPTY

/-- `fn box_comp` inside `Hittable::bvh`. -/
def box_comp (a b : Hittable) (axis : Nat) : Bool :=
  decide ((a.calc_aabb.axis_interval axis).min <
          (b.calc_aabb.axis_interval axis).min)

/-- `Hittable::bvh`: union box, longest axis, then 1/2-element base cases
or median split of the sorted list.  The source diverges on an empty
slice; the empty case here returns a junk value and every theorem
quantifies over non-empty lists.  The `assert_eq!` at the end is proved
as a theorem below instead of being executed. -/
def bvh (hittables : List Hittable) : Hittable :=
  let aabb := unionAabb hittables
  let axis := aabb.longest_axis
  match hittables with
  | [] => list []
  | [h] => bvhLeaf (AABBx2.new h.calc_aabb AABB.empty) h
  | [h1, h2] => bvhNode (AABBx2.new h1.calc_aabb h2.calc_aabb) h1 h2
  | h1 :: h2 :: h3 :: rest =>
      let sorted := (h1 :: h2 :: h3 :: rest).mergeSort
        (fun a b => box_comp a b axis)
      let middle := sorted.length / 2
      let leftHalf := sorted.take middle
      let rightHalf := sorted.drop middle
      let r1 := bvh leftHalf
      let r2 := bvh rightHalf
      bvhNode (AABBx2.new r1.calc_aabb r2.calc_aabb) r1 r2
termination_by hittables.length

end Hittable

/-- # src/lib.rs — `World`.

Modelled from the spec: src/ references a `MaterialMap` (`material.rs`
symbol missing from src/) only to resolve a hit's material reference; the
`HitRecord` in src/ already stores the `Material` value itself, so the
lookup is the identity and the map carries no data. -/
structure World where
  entry : Hittable

/-- `f32::to_radians` (multiplication by `PI/180`, with the oracle's
rational `PI`). -/
def toRadians (trig : Trig) (q : ℚ) : ℚ := q * (trig.piQ / 180)

/-- # src/camera.rs — `RaytracingCamera` (derived per-render state). -/
structure RaytracingCamera where
  image_dimensions : Nat × Nat
  centre : Vec3
  pixel00_loc : Vec3
  pixel_delta_u : Vec3
  pixel_delta_v : Vec3
  max_depth : Nat
  defocus_angle : ℚ
  defocus_disk_u : Vec3
  defocus_disk_v : Vec3
  background_colour : Vec3

/-- `RaytracingCamera::new`: the viewport basis derivation. -/
def RaytracingCamera.new (trig : Trig) (width height max_depth : Nat)
    (vfov : ℚ) (look_from look_at vup : Vec3) (defocus_angle focus_dist : ℚ)
    (background_colour : Vec3) : RaytracingCamera :=
  let centre := look_from
  let theta := toRadians trig vfov
  let h := trig.tan (theta / 2)
  let viewport_height := 2 * h * focus_dist
  let viewport_width := viewport_height * ((width : ℚ) / (height : ℚ))
  let w := (look_from - look_at).unit
  let u := (vup.cross w).unit
  let v := w.cross u
  let viewport_u := Vec3.smul viewport_width u
  let viewport_v := Vec3.smul viewport_height (-v)
  let pixel_delta_u := viewport_u.divs (width : ℚ)
  let pixel_delta_v := viewport_v.divs (height : ℚ)
  let viewport_upper_left :=
    centre - Vec3.smul focus_dist w - viewport_u.divs 2 - viewport_v.divs 2
  let pixel00_loc := viewport_upper_left
    + Vec3.smul (1/2) (pixel_delta_u + pixel_delta_v)
  let defocus_radius := focus_dist * trig.tan (toRadians trig (defocus_angle / 2))
  { image_dimensions := (width, height)
    centre := centre
    pixel00_loc := pixel00_loc
    pixel_delta_u := pixel_delta_u
    pixel_delta_v := pixel_delta_v
    max_depth := max_depth
    defocus_angle := defocus_angle
    defocus_disk_u := Vec3.smul defocus_radius u
    defocus_disk_v := Vec3.smul defocus_radius v
    background_colour := background_colour }

/-- # src/camera.rs — `Camera` (interactive session state). -/
structure Camera where
  position : Vec3
  direction : Vec3
  display_scale : ℚ
  render_resolution : Nat × Nat
  pitch : ℚ
  yaw : ℚ
  vfov : ℚ
  vup : Vec3
  focus_dist : ℚ
  rt_cam : RaytracingCamera
  acc_colours : List Vec3
  final_colours : List Nat
  samples : Nat
  world : World
  background_colour : Vec3
  exposure : ℚ

namespace Camera

/-- `Camera::force_update_raytracing_camera`: recompute the forward
direction from pitch/yaw and rebuild the derived `RaytracingCamera`
(leaving `self.direction` itself untouched, as the source does). -/
def force_update_raytracing_camera (trig : Trig) (c : Camera) : Camera :=
  let direction : Vec3 :=
    ⟨trig.cos (toRadians trig c.yaw) * trig.cos (toRadians trig c.pitch),
     trig.sin (toRadians trig c.pitch),
     trig.sin (toRadians trig c.yaw) * trig.cos (toRadians trig c.pitch)⟩
  let render := RaytracingCamera.new trig c.rt_cam.image_dimensions.1
    c.rt_cam.image_dimensions.2 c.rt_cam.max_depth c.vfov c.position
    (c.position + direction) c.vup c.rt_cam.defocus_angle c.focus_dist
    c.background_colour
  { c with rt_cam := render }

/-- `Camera::set_exposure`. -/
def set_exposure (trig : Trig) (c : Camera) (exposure : ℚ) : Camera :=
  let c := force_update_raytracing_camera trig c
  { c with exposure := exposure }

/-- `Camera::change_pitch_yaw_by`. -/
def change_pitch_yaw_by (trig : Trig) (c : Camera) (deltaPitch deltaYaw : ℚ) :
    Camera :=
  if deltaPitch = 0 ∧ deltaYaw = 0 then c
  else
    let pitch := c.pitch + deltaPitch
    let yaw := c.yaw + deltaYaw
    let direction : Vec3 :=
      ⟨trig.cos (toRadians trig yaw) * trig.cos (toRadians trig pitch),
       trig.sin (toRadians trig pitch),
       trig.sin (toRadians trig yaw) * trig.cos (toRadians trig pitch)⟩
    { c with pitch := pitch, yaw := yaw, direction := direction, samples := 0 }

/-- `Camera::move_by`. -/
def move_by (c : Camera) (step : Vec3) : Camera :=
  let c := { c with position := c.position + step }
  if step ≠ Vec3.ZERO then { c with samples := 0 } else c

end Camera

/-- The scene traversal `Ray::hit_anything`, abstracted: any function from
a seed and a ray to an optional hit record (plus the advanced seed).  The
claims about `ray_colour` quantify over every world, so the traversal is
universally quantified rather than embedded. -/
abbrev Trace : Type := Seed → Ray → Option HitRecord × Seed

/-- # src/camera.rs — `RaytracingCamera::ray_colour`, the iterative
integrator loop: the explicit frame `{ray, depth, multiplier}` starting
from `multiplier = ONE`, with `multiplier * attenuation + emission` on
every bounce.  The material lookup is the identity (see `World`). -/
def rayColourLoop (trig : Trig) (trace : Trace) (background : Vec3) :
    Nat → Seed → Ray → Vec3 → Except String Vec3
  | 0, _, _, _ => .ok Vec3.ZERO
  | Nat.succ d, seed, ray, multiplier =>
    let (recOpt, s1) := trace seed ray
    match recOpt with
    | none => .ok (multiplier * background)
    | some rec =>
        let material := rec.material
        let colour_from_emission := material.emitted trig rec.u rec.v rec.point
        match material.scatter trig s1 ray rec with
        | .error e => .error e
        | .ok (none, _) => .ok (multiplier * colour_from_emission)
        | .ok (some (scattered, attenuation), s2) =>
            rayColourLoop trig trace background d s2 scattered
              (multiplier * attenuation + colour_from_emission)

/-- `RaytracingCamera::ray_colour` proper: the loop entered with
`depth = max_depth` and `multiplier = ONE`. -/
def RaytracingCamera.ray_colour (trig : Trig) (cam : RaytracingCamera)
    (trace : Trace) (seed : Seed) (ray : Ray) : Except String Vec3 :=
  rayColourLoop trig trace cam.background_colour cam.max_depth seed ray Vec3.ONE

/-- The recursive reference estimator, written from the claim's words:
black at depth 0; the background on a miss; `emitted` when the material
refuses to scatter; `emitted + attenuation * colour(scattered, d-1)`
otherwise.  (Second definition of a refinement claim; compare
`rayColourLoop`.) -/
def rayColourRec (trig : Trig) (trace : Trace) (background : Vec3) :
    Nat → Seed → Ray → Except String Vec3
  | 0, _, _ => .ok Vec3.ZERO
  | Nat.succ d, seed, ray =>
    let (recOpt, s1) := trace seed ray
    match recOpt with
    | none => .ok background
    | some rec =>
        let emission := rec.material.emitted trig rec.u rec.v rec.point
        match rec.material.scatter trig s1 ray rec with
        | .error e => .error e
        | .ok (none, _) => .ok emission
        | .ok (some (scattered, attenuation), s2) =>
            (rayColourRec trig trace background d s2 scattered).map
              (fun c => emission + attenuation * c)

/-! ## Theorems -/

theorem Vec3.zero_add3 (a : Vec3) : Vec3.ZERO + a = a := by
  simp [Vec3.ZERO]

/-- Concrete trigonometric oracle for closed evaluations. -/
def trig0 : Trig := ⟨fun _ => 0, fun _ => 0, fun _ => 0, fun _ => 0,
                     fun _ _ => 0, 0⟩

/-- Concrete seed for closed evaluations. -/
def seed0 : Seed := ⟨fun _ => 0, fun _ => Vec3.ZERO, 0, 0⟩

/-- In the embedded materials, a material that agrees to scatter never
emits: `emitted` is non-zero only for `DiffuseLight`, whose `scatter`
returns `None`. -/
theorem Material.emitted_eq_zero_of_scatter_some (trig : Trig) (m : Material)
    (seed : Seed) (rayIn : Ray) (rec : HitRecord) (pr : Ray × Vec3) (s : Seed)
    (h : m.scatter trig seed rayIn rec = .ok (some pr, s)) (u v : ℚ) (p : Vec3) :
    m.emitted trig u v p = Vec3.ZERO := by
  cases hk : m.kind
  case lambertian => simp [Material.emitted, hk]
  case metal fz => simp [Material.emitted, hk]
  case dielectric ri => simp [Material.emitted, hk]
  case isotropic => simp [Material.emitted, hk]
  case notFound => simp [Material.emitted, hk]
  case diffuseLight =>
    rw [Material.scatter, hk] at h
    simp at h

/-- The iterative integrator with pending multiplier `m` computes `m`
times the recursive estimator. -/
theorem rayColourLoop_eq_map (trig : Trig) (trace : Trace) (background : Vec3) :
    ∀ (depth : Nat) (seed : Seed) (ray : Ray) (multiplier : Vec3),
    rayColourLoop trig trace background depth seed ray multiplier =
      (rayColourRec trig trace background depth seed ray).map
        (fun c => multiplier * c) := by
  intro depth
  induction depth with
  | zero =>
      intro seed ray m
      rw [rayColourLoop, rayColourRec]
      simp [Except.map, Vec3.ZERO]
  | succ d ih =>
      intro seed ray m
      rw [rayColourLoop, rayColourRec]
      rcases htr : trace seed ray with ⟨recOpt, s1⟩
      cases recOpt with
      | none => simp [htr, Except.map]
      | some rec =>
        rcases hsc : rec.material.scatter trig s1 ray rec with e | ⟨opt, s2⟩
        · simp [htr, hsc, Except.map]
        · cases opt with
          | none => simp [htr, hsc, Except.map]
          | some pr2 =>
            obtain ⟨scattered, attenuation⟩ := pr2
            have hz := Material.emitted_eq_zero_of_scatter_some trig
              rec.material s1 ray rec (scattered, attenuation) s2 hsc
              rec.u rec.v rec.point
            simp only [htr, hsc, hz]
            rw [ih]
            cases hr : rayColourRec trig trace background d s2 scattered with
            | error e => simp [Except.map]
            | ok c =>
                simp [Except.map, Vec3.ZERO]
                refine ⟨by ring, by ring, by ring⟩

/-- C1: for every world (traversal function), seed, initial ray and max
depth, the iterative `ray_colour` loop — frame `{ray, depth, multiplier}`
starting from `multiplier = (1,1,1)` and updated as `multiplier =
multiplier * attenuation + emission` — returns the same colour as the
recursive reference estimator (black at depth 0; background on a miss;
`emitted` on scatter refusal; `emitted + attenuation * colour(scattered,
d-1)` otherwise). -/
theorem c1_ray_colour_iter_eq_rec (trig : Trig) (cam : RaytracingCamera)
    (trace : Trace) (seed : Seed) (ray : Ray) :
    cam.ray_colour trig trace seed ray =
      rayColourRec trig trace cam.background_colour cam.max_depth seed ray := by
  rw [RaytracingCamera.ray_colour, rayColourLoop_eq_map]
  cases hr : rayColourRec trig trace cam.background_colour cam.max_depth seed ray with
  | error e => rfl
  | ok c => simp [Except.map, Vec3.ONE]

/-- C8 counterexample: `Texture::value` on the `NotFound` placeholder does
not panic; it returns the colour `Colour::ZERO` (src/texture.rs line 71),
contradicting the claim that both placeholder paths panic. -/
theorem c8_texture_notfound_returns_zero :
    Texture.value trig0 Texture.notFound 0 0 Vec3.ZERO = Vec3.ZERO := rfl

/-- C8 (amended): `Material::scatter` on `MaterialKind::NotFound` is an
unconditional panic (`unimplemented!()`, modelled as `Except.error`),
while `Texture::value` on `TextureKind::NotFound` returns `Colour::ZERO`
rather than panicking. -/
theorem c8_notfound_behaviour :
    (∀ (trig : Trig) (t : Texture) (seed : Seed) (rayIn : Ray)
       (rec : HitRecord),
       (Material.mk t MaterialKind.notFound).scatter trig seed rayIn rec =
         .error "not implemented") ∧
    (∀ (trig : Trig) (u v : ℚ) (p : Vec3),
       Texture.value trig Texture.notFound u v p = Vec3.ZERO) := by
  constructor
  · intro trig t seed rayIn rec
    rfl
  · intro trig u v p
    rfl

/-- Concrete camera state for closed evaluations. -/
def cam0 : Camera :=
  { position := Vec3.ZERO
    direction := Vec3.ZERO
    display_scale := 1
    render_resolution := (1, 1)
    pitch := 0
    yaw := 0
    vfov := 90
    vup := ⟨0, 1, 0⟩
    focus_dist := 1
    rt_cam := RaytracingCamera.new trig0 1 1 1 90 Vec3.ZERO Vec3.ONE
      ⟨0, 1, 0⟩ 0 1 Vec3.ZERO
    acc_colours := [Vec3.ONE]
    final_colours := []
    samples := 5
    world := ⟨Hittable.list []⟩
    background_colour := Vec3.ZERO
    exposure := 1 }

/-- C9: `change_pitch_yaw_by` with a nonzero delta and `move_by` with a
nonzero step reset the sample counter to 0; `move_by` with the zero step
leaves it unchanged; `set_exposure` changes only the exposure and the
derived `rt_cam`, leaving the sample counter, the accumulation buffer and
all other session fields unchanged. -/
theorem c9_mutators_and_sample_counter (trig : Trig) (c : Camera)
    (dp dy e : ℚ) (step : Vec3) :
    ((dp ≠ 0 ∨ dy ≠ 0) → (c.change_pitch_yaw_by trig dp dy).samples = 0) ∧
    (step ≠ Vec3.ZERO → (c.move_by step).samples = 0) ∧
    (c.move_by Vec3.ZERO).samples = c.samples ∧
    (c.set_exposure trig e).samples = c.samples ∧
    (c.set_exposure trig e).acc_colours = c.acc_colours ∧
    (c.set_exposure trig e).exposure = e ∧
    (c.set_exposure trig e).position = c.position ∧
    (c.set_exposure trig e).direction = c.direction ∧
    (c.set_exposure trig e).pitch = c.pitch ∧
    (c.set_exposure trig e).yaw = c.yaw ∧
    (c.set_exposure trig e).final_colours = c.final_colours := by
  refine ⟨?_, ?_, ?_, ?_, ?_, ?_, ?_, ?_, ?_, ?_, ?_⟩
  · intro h
    rw [Camera.change_pitch_yaw_by]
    have : ¬ (dp = 0 ∧ dy = 0) := by tauto
    simp [this]
  · intro h
    simp [Camera.move_by, h]
  · simp [Camera.move_by]
  all_goals rfl

/-- `set_face_normal` never touches the parametric distance. -/
theorem HitRecord.set_face_normal_t (rec : HitRecord) (ray : Ray) (n : Vec3) :
    (rec.set_face_normal ray n).t = rec.t := rfl

theorem HitRecord.set_face_normal_u (rec : HitRecord) (ray : Ray) (n : Vec3) :
    (rec.set_face_normal ray n).u = rec.u := rfl

theorem HitRecord.set_face_normal_v (rec : HitRecord) (ray : Ray) (n : Vec3) :
    (rec.set_face_normal ray n).v = rec.v := rfl

/-- Unit sphere at the origin. -/
def sphereUnit : Sphere := ⟨Vec3.ZERO, 1, Material.default⟩

/-- Stationary moving sphere of radius 1 at the origin. -/
def msUnit : MovingSphere := MovingSphere.new Vec3.ZERO Vec3.ZERO 1 Material.default

/-- A ray tangent to `sphereUnit`: origin `(-2,1,0)`, direction `(1,0,0)`,
touching at `(0,1,0)` with `t = 2`. -/
def rayTangent : Ray := ⟨⟨-2, 1, 0⟩, ⟨1, 0, 0⟩, 0⟩

/-- A ray missing `sphereUnit`: origin `(-2,2,0)`, direction `(1,0,0)`. -/
def rayMiss : Ray := ⟨⟨-2, 2, 0⟩, ⟨1, 0, 0⟩, 0⟩

/-- The default query interval `[0.001, 100]` used in concrete tests. -/
def tQuery : Interval := Interval.new (.fin (1/1000)) (.fin 100)

/-- C5 counterexample: the tangent ray has discriminant exactly zero, yet
`Sphere::hit` reports an intersection (the code only rejects strictly
negative discriminants), contradicting the claim that a zero discriminant
is treated as no hit. -/
theorem c5_zero_discriminant_hits :
    Sphere.discriminant sphereUnit rayTangent = 0 ∧
    (Sphere.hit trig0 sphereUnit rayTangent tQuery HitRecord.default).isSome
      = true := by
  constructor
  · norm_num [Sphere.discriminant, sphereUnit, rayTangent, Vec3.dot,
      Vec3.length_squared, Vec3.ZERO]
  · rw [Sphere.hit]
    norm_num [sphereUnit, rayTangent, tQuery, Vec3.dot, Vec3.length_squared,
      Vec3.ZERO, Interval.surrounds, Interval.new, sqrtQ]

/-- C5 (amended): only a strictly negative discriminant is an
unconditional miss; a zero discriminant (tangent ray, with a nonzero
direction) yields the double root `-half_b / a`, which is reported as a
hit exactly when it lies strictly inside the query interval.  Neither
routine can panic (both are total, returning `Option`). -/
theorem c5_discriminant_policy (trig : Trig) (s : Sphere) (ms : MovingSphere)
    (ray : Ray) (t : Interval) (rec : HitRecord) :
    (s.discriminant ray < 0 → s.hit trig ray t rec = none) ∧
    (ms.discriminant ray < 0 → ms.hit trig ray t rec = none) ∧
    (s.discriminant ray = 0 → ray.direction.length_squared ≠ 0 →
      ((s.hit trig ray t rec).isSome ↔
        t.surrounds (.fin (-((ray.origin - s.centre).dot ray.direction) /
          ray.direction.length_squared)))) ∧
    (ms.discriminant ray = 0 → ray.direction.length_squared ≠ 0 →
      ((ms.hit trig ray t rec).isSome ↔
        t.surrounds (.fin (-((ray.origin - ms.centre.at' ray.time).dot
            ray.direction) / ray.direction.length_squared)))) := by
  refine ⟨?_, ?_, ?_, ?_⟩
  · intro hd
    rw [Sphere.discriminant] at hd
    rw [Sphere.hit]
    simp only [hd, if_pos, if_true]
  · intro hd
    rw [MovingSphere.discriminant] at hd
    rw [MovingSphere.hit]
    simp only [hd, if_pos, if_true]
  · intro hd ha
    rw [Sphere.discriminant] at hd
    rw [Sphere.hit]
    simp only [hd, sqrtQ_zero, sub_zero, add_zero, lt_self_iff_false,
      if_false]
    by_cases hs : t.surrounds
        (.fin (-((ray.origin - s.centre).dot ray.direction) /
          ray.direction.length_squared))
    · have hs' := hs
      simp only [Vec3.sub_def] at hs'
      simp [hs', hs]
    · have hs' := hs
      simp only [Vec3.sub_def] at hs'
      simp [hs', hs]
  · intro hd ha
    rw [MovingSphere.discriminant] at hd
    rw [MovingSphere.hit]
    simp only [hd, sqrtQ_zero, sub_zero, add_zero, lt_self_iff_false,
      if_false]
    by_cases hs : t.surrounds
        (.fin (-((ray.origin - ms.centre.at' ray.time).dot ray.direction) /
          ray.direction.length_squared))
    · have hs' := hs
      simp only [Vec3.sub_def] at hs'
      simp [hs', hs]
    · have hs' := hs
      simp only [Vec3.sub_def] at hs'
      simp [hs', hs]

/-- C5 witness: the policy evaluated on concrete rays — a negative
discriminant misses, and the zero-discriminant tangent ray's hit reduces
to the strict interval test. -/
theorem c5_witness :
    Sphere.hit trig0 sphereUnit rayMiss tQuery HitRecord.default = none ∧
    ((Sphere.hit trig0 sphereUnit rayTangent tQuery
        HitRecord.default).isSome ↔
      tQuery.surrounds (.fin (-((rayTangent.origin -
        sphereUnit.centre).dot rayTangent.direction) /
        rayTangent.direction.length_squared))) :=
  ⟨(c5_discriminant_policy trig0 sphereUnit msUnit rayMiss tQuery
      HitRecord.default).1
     (by norm_num [Sphere.discriminant, sphereUnit, rayMiss, Vec3.dot,
       Vec3.length_squared, Vec3.ZERO]),
   (c5_discriminant_policy trig0 sphereUnit msUnit rayTangent tQuery
      HitRecord.default).2.2.1
     (by norm_num [Sphere.discriminant, sphereUnit, rayTangent, Vec3.dot,
       Vec3.length_squared, Vec3.ZERO])
     (by norm_num [rayTangent, Vec3.length_squared, Vec3.dot])⟩

/-- A quad spanning `[-1,1]²` in the plane `z = 1`. -/
def quadXY : Quad := Quad.new ⟨-1, -1, 1⟩ ⟨2, 0, 0⟩ ⟨0, 2, 0⟩ Material.default

/-- A ray from the origin along `+z`. -/
def rayZ : Ray := ⟨Vec3.ZERO, ⟨0, 0, 1⟩, 0⟩

/-- Unit sphere centred at `(0,0,5)` (first root of `rayZ` at `t = 4`). -/
def sphereFar : Sphere := ⟨⟨0, 0, 5⟩, 1, Material.default⟩

/-- Query interval whose upper endpoint is exactly the quad's `t = 1`. -/
def tUnitMax : Interval := Interval.new (.fin (1/1000)) (.fin 1)

/-- Query interval whose upper endpoint is exactly the sphere root `4`. -/
def tBoundary : Interval := Interval.new (.fin (1/1000)) (.fin 4)

/-- `quadXY`'s precomputed plane data, evaluated. -/
theorem quadXY_eval :
    quadXY = ⟨⟨-1, -1, 1⟩, ⟨2, 0, 0⟩, ⟨0, 2, 0⟩, ⟨0, 0, 1/4⟩, ⟨0, 0, 1⟩, 1,
      Material.default⟩ := by
  rw [quadXY, Quad.new]
  norm_num [Vec3.cross, Vec3.unit, Vec3.divs, Vec3.smul, Vec3.dot,
    Vec3.length, Vec3.length_squared, sqrtQ_sixteen]

/-- C10: the sphere family accepts candidate roots only strictly inside
the query interval (`Interval::surrounds`) while `Quad::hit` accepts `t`
inclusively (`Interval::contains`); concretely, a quad hit exactly at
`t = t_max` succeeds while a sphere root exactly at `t = t_max` is
rejected. -/
theorem c10_boundary_semantics (trig : Trig) (s : Sphere) (ms : MovingSphere)
    (qd : Quad) (ray : Ray) (t : Interval) (rec : HitRecord) :
    (∀ r, s.hit trig ray t rec = some r → t.surrounds (.fin r.t)) ∧
    (∀ r, ms.hit trig ray t rec = some r → t.surrounds (.fin r.t)) ∧
    (∀ r, qd.hit ray t rec = some r → t.contains (.fin r.t)) ∧
    (quadXY.hit rayZ tUnitMax HitRecord.default).isSome = true ∧
    sphereFar.hit trig0 rayZ tBoundary HitRecord.default = none := by
  refine ⟨?_, ?_, ?_, ?_, ?_⟩
  · intro r h
    rw [Sphere.hit] at h
    split at h
    · exact Option.noConfusion h
    · dsimp only at h
      split at h
      · exact Option.noConfusion h
      · rename_i root heq
        obtain rfl := Option.some.inj h
        simp only [HitRecord.set_face_normal_t]
        split at heq
        · rename_i hc1
          cases Option.some.inj heq
          exact hc1
        · split at heq
          · rename_i hc2
            cases Option.some.inj heq
            exact hc2
          · exact Option.noConfusion heq
  · intro r h
    rw [MovingSphere.hit] at h
    split at h
    · exact Option.noConfusion h
    · dsimp only at h
      split at h
      · exact Option.noConfusion h
      · rename_i root heq
        obtain rfl := Option.some.inj h
        simp only [HitRecord.set_face_normal_t]
        split at heq
        · rename_i hc1
          cases Option.some.inj heq
          exact hc1
        · split at heq
          · rename_i hc2
            cases Option.some.inj heq
            exact hc2
          · exact Option.noConfusion heq
  · intro r h
    rw [Quad.hit] at h
    split at h
    · exact Option.noConfusion h
    · dsimp only at h
      split at h
      · exact Option.noConfusion h
      · rename_i hcont
        split at h
        · exact Option.noConfusion h
        · obtain rfl := Option.some.inj h
          simpa only [HitRecord.set_face_normal_t] using not_not.mp hcont
  · rw [quadXY_eval, Quad.hit]
    norm_num [rayZ, tUnitMax, Quad.tHit, Quad.alpha, Quad.beta, Ray.at',
      Vec3.dot, Vec3.cross, Vec3.smul, Vec3.ZERO, Interval.contains,
      Interval.UNIT, Interval.new]
  · rw [Sphere.hit]
    norm_num [sphereFar, rayZ, tBoundary, Vec3.dot, Vec3.length_squared,
      Vec3.ZERO, sqrtQ_one, Interval.surrounds, Interval.new]

/-- C10 witness: the quad conjunct applied at the concrete boundary hit
(`t` exactly the interval's upper endpoint). -/
theorem c10_witness :
    Interval.contains tUnitMax (.fin (1 : ℚ)) := by
  have h := (c10_boundary_semantics trig0 sphereUnit msUnit quadXY rayZ
    tUnitMax HitRecord.default).2.2.1
  have hr : quadXY.hit rayZ tUnitMax HitRecord.default =
      some ⟨⟨0, 0, 1⟩, ⟨0, 0, -1⟩, 1, false, Material.default, 1/2, 1/2⟩ := by
    rw [quadXY_eval, Quad.hit]
    norm_num [rayZ, tUnitMax, Quad.tHit, Quad.alpha, Quad.beta, Ray.at',
      Vec3.dot, Vec3.cross, Vec3.smul, Vec3.ZERO, Interval.contains,
      Interval.UNIT, Interval.new, HitRecord.set_face_normal,
      HitRecord.default]
  simpa using h _ hr

/-- C6: `Quad::hit` misses whenever the plane denominator satisfies
`|normal·direction| < 1e-8` (parallel ray) and whenever the planar
coordinates at the plane parameter fall outside the closed unit square;
conversely any reported hit carries planar coordinates in the closed unit
interval and a `t` accepted by the inclusive `ray_t.contains`. -/
theorem c6_quad_hit_guards (qd : Quad) (ray : Ray) (rayT : Interval)
    (rec : HitRecord) :
    (|qd.normal.dot ray.direction| < 1/100000000 →
       qd.hit ray rayT rec = none) ∧
    ((¬ Interval.UNIT.contains (.fin (qd.alpha ray (qd.tHit ray))) ∨
      ¬ Interval.UNIT.contains (.fin (qd.beta ray (qd.tHit ray)))) →
       qd.hit ray rayT rec = none) ∧
    (∀ r, qd.hit ray rayT rec = some r →
       Interval.UNIT.contains (.fin r.u) ∧
       Interval.UNIT.contains (.fin r.v) ∧
       rayT.contains (.fin r.t)) := by
  refine ⟨?_, ?_, ?_⟩
  · intro h
    rw [Quad.hit, if_pos h]
  · intro h
    rw [Quad.hit]
    split
    · rfl
    · dsimp only
      rw [if_pos h]
      split
      · rfl
      · rfl
  · intro r h
    rw [Quad.hit] at h
    split at h
    · exact Option.noConfusion h
    · dsimp only at h
      split at h
      · exact Option.noConfusion h
      · rename_i hcont
        split at h
        · exact Option.noConfusion h
        · rename_i hab
          obtain rfl := Option.some.inj h
          rw [not_or, not_not, not_not] at hab
          exact ⟨by simpa only [HitRecord.set_face_normal_u] using hab.1,
                 by simpa only [HitRecord.set_face_normal_v] using hab.2,
                 by simpa only [HitRecord.set_face_normal_t] using
                   not_not.mp hcont⟩

/-- C6 witness: the guards on concrete quads — a ray parallel to the quad
plane misses, and a ray with planar coordinates outside the unit square
misses. -/
theorem c6_witness :
    quadXY.hit ⟨Vec3.ZERO, ⟨1, 0, 0⟩, 0⟩ tQuery HitRecord.default = none ∧
    quadXY.hit ⟨⟨5, 5, 0⟩, ⟨0, 0, 1⟩, 0⟩ tQuery HitRecord.default = none :=
  ⟨(c6_quad_hit_guards quadXY ⟨Vec3.ZERO, ⟨1, 0, 0⟩, 0⟩ tQuery
      HitRecord.default).1
     (by rw [quadXY_eval]; norm_num [Vec3.dot]),
   (c6_quad_hit_guards quadXY ⟨⟨5, 5, 0⟩, ⟨0, 0, 1⟩, 0⟩ tQuery
      HitRecord.default).2.1
     (by rw [quadXY_eval]
         norm_num [Quad.alpha, Quad.tHit, Ray.at', Vec3.dot, Vec3.cross,
           Vec3.smul, Interval.contains, Interval.UNIT, Interval.new])⟩

@[simp] theorem FP.abs_fin (q : ℚ) : FP.abs (.fin q) = .fin |q| := rfl

@[simp] theorem FP.one_sub_zero : (1 : FP) - (0 : FP) = 1 := by
  show FP.fin (1 + -0) = FP.fin 1
  norm_num

theorem FP.fin_one_mul (a : FP) : FP.fin 1 * a = a := by
  cases a
  case ninf => decide
  case inf => decide
  case fin q =>
    show FP.fin (1 * q) = FP.fin q
    rw [one_mul]

/-- The unit cube `[0,1]³`. -/
def boxUnit : AABB :=
  AABB.new (.new (.fin 0) (.fin 1)) (.new (.fin 0) (.fin 1))
           (.new (.fin 0) (.fin 1))

/-- The diagonal ray from the origin (inverse direction `(1,1,1)`). -/
def rayDiag : Ray := ⟨Vec3.ZERO, ⟨1, 1, 1⟩, 0⟩

def invDiag : FVec3 := ⟨.fin 1, .fin 1, .fin 1⟩

/-- The degenerate query interval `[1/2, 1/2]`. -/
def tHalf : Interval := Interval.new (.fin (1/2)) (.fin (1/2))

/-- C2 counterexample: on the unit cube with a diagonal ray and the query
interval `[1/2, 1/2]` the slab test produces the interval `[1/2, 1/2]` —
so `max <= min` holds, which the claim calls empty and says is rejected —
yet `AABB::hit` reports a hit (the code accepts `min <= max`, keeping
equal endpoints). -/
theorem c2_equal_endpoints_still_hit :
    (boxUnit.hit rayDiag invDiag tHalf).2 = true ∧
    (boxUnit.hit rayDiag invDiag tHalf).1.max ≤
      (boxUnit.hit rayDiag invDiag tHalf).1.min := by
  constructor
  · rw [AABB.hit, AABB.slab]
    norm_num [boxUnit, rayDiag, invDiag, tHalf, AABB.new, Interval.new,
      Vec3.ZERO, FP.min_fin_fin, FP.max_fin_fin]
  · rw [AABB.hit, AABB.slab]
    norm_num [boxUnit, rayDiag, invDiag, tHalf, AABB.new, Interval.new,
      Vec3.ZERO, FP.min_fin_fin, FP.max_fin_fin]

/-- C2 (amended): the slab test intersects the per-axis entry/exit times
(computed from the precomputed inverse direction) with the running
interval — the mutated interval's min is the max of `ray_t.min` and the
per-axis entries, its max the min of `ray_t.max` and the per-axis exits —
and a miss is reported exactly when the resulting interval is empty in
the strict sense `max < min`; an interval with equal endpoints still
counts as a hit.  Each half of `AABBx2::hit` is the same computation with
the inverse direction `1/d` computed per axis. -/
theorem c2_slab_characterisation (b : AABB) (p : AABBx2) (ray : Ray)
    (invDir : FVec3) (rayT : Interval) (ht : rayT.min ≤ rayT.max) :
    ((b.hit ray invDir rayT).1.min =
      max (max (max (min ((b.x.min - .fin ray.origin.x) * invDir.x)
                        ((b.x.max - .fin ray.origin.x) * invDir.x))
                   (min ((b.y.min - .fin ray.origin.y) * invDir.y)
                        ((b.y.max - .fin ray.origin.y) * invDir.y)))
              (min ((b.z.min - .fin ray.origin.z) * invDir.z)
                   ((b.z.max - .fin ray.origin.z) * invDir.z)))
          rayT.min) ∧
    ((b.hit ray invDir rayT).1.max =
      min (min (min (max ((b.x.min - .fin ray.origin.x) * invDir.x)
                        ((b.x.max - .fin ray.origin.x) * invDir.x))
                   (max ((b.y.min - .fin ray.origin.y) * invDir.y)
                        ((b.y.max - .fin ray.origin.y) * invDir.y)))
              (max ((b.z.min - .fin ray.origin.z) * invDir.z)
                   ((b.z.max - .fin ray.origin.z) * invDir.z)))
          rayT.max) ∧
    ((b.hit ray invDir rayT).2 = false ↔
      (b.hit ray invDir rayT).1.max < (b.hit ray invDir rayT).1.min) ∧
    ((p.hit ray rayT).1 = p.b1.hit ray ⟨inv32 ray.direction.x,
        inv32 ray.direction.y, inv32 ray.direction.z⟩ rayT) ∧
    ((p.hit ray rayT).2 = p.b2.hit ray ⟨inv32 ray.direction.x,
        inv32 ray.direction.y, inv32 ray.direction.z⟩ rayT) := by
  refine ⟨?_, ?_, ?_, rfl, rfl⟩
  · rw [AABB.hit, AABB.slab]
    simp only [Interval.new, FP.one_sub_zero, FP.one_mul_fp]
    rw [min_eq_left ht]
  · rw [AABB.hit, AABB.slab]
    simp only [Interval.new, FP.one_sub_zero, FP.one_mul_fp]
    rw [max_eq_right ht]
  · rw [AABB.hit]
    simp only [decide_eq_false_iff_not, not_le, Interval.new]

/-- C2 witness: the strict-emptiness equivalence evaluated on the unit
cube with an ordered query interval. -/
theorem c2_witness :
    ((boxUnit.hit rayDiag invDiag (Interval.new (.fin 0) (.fin 1))).2 =
        false ↔
      (boxUnit.hit rayDiag invDiag (Interval.new (.fin 0) (.fin 1))).1.max <
        (boxUnit.hit rayDiag invDiag (Interval.new (.fin 0) (.fin 1))).1.min) :=
  (c2_slab_characterisation boxUnit (AABBx2.new boxUnit boxUnit) rayDiag
    invDiag (Interval.new (.fin 0) (.fin 1))
    (by norm_num [Interval.new])).2.2.1

/-- A flat quad in the plane `z = 0`. -/
def quadFlat : Quad := Quad.new ⟨0, 0, 0⟩ ⟨1, 0, 0⟩ ⟨0, 1, 0⟩ Material.default

/-- C3 counterexample: the AABB computed for a flat quad has a
zero-thickness `z` axis — `pad_to_minimums` is never applied to it (the
function has no caller in the sources), so AABBs with axes thinner than
`1e-4` are reachable during rendering, contradicting the claimed
invariant. -/
theorem c3_flat_quad_zero_thickness :
    (Hittable.quad quadFlat).calc_aabb.z.size = .fin 0 ∧
    ¬ (FP.fin (1/10000) ≤ (Hittable.quad quadFlat).calc_aabb.z.size) := by
  have hz : (Hittable.quad quadFlat).calc_aabb.z.size = .fin 0 := by
    rw [Hittable.calc_aabb]
    norm_num [quadFlat, Quad.new, AABB.from_points, AABB.from_aabbs,
      AABB.new, Interval.from_intervals, Interval.size, Interval.new,
      FP.min_fin_fin, FP.max_fin_fin]
  refine ⟨hz, ?_⟩
  rw [hz]
  norm_num

/-- One axis of `pad_to_minimums`: a properly ordered finite interval is
widened to thickness at least `1e-4`. -/
theorem pad_axis_min_size (a b : ℚ) (hab : a ≤ b) :
    FP.fin (1/10000) ≤
      (if (Interval.new (.fin a) (.fin b)).size < FP.fin (1/10000)
       then Interval.new ((Interval.new (.fin a) (.fin b)).min -
              .fin (1/20000)) ((Interval.new (.fin a) (.fin b)).max +
              .fin (1/20000))
       else Interval.new (.fin a) (.fin b)).size := by
  by_cases h : (Interval.new (.fin a) (.fin b)).size < FP.fin (1/10000)
  · rw [if_pos h]
    simp only [Interval.size, Interval.new, FP.fin_sub_fin, FP.fin_add_fin,
      FP.abs_fin, FP.fin_le_fin]
    rw [abs_of_nonneg (by linarith)]
    linarith
  · rw [if_neg h]
    simp only [Interval.size, Interval.new, FP.fin_sub_fin, FP.abs_fin,
      FP.fin_lt_fin, not_lt, FP.fin_le_fin] at h ⊢
    exact h

/-- C3 (amended): `pad_to_minimums` itself does establish the minimum
thickness — every properly ordered finite box comes out with each axis at
least `1e-4` thick — but the renderer never calls it, and flat primitives
(see the counterexample) produce zero-thickness axes that reach
rendering unpadded. -/
theorem c3_pad_to_minimums_widens (x0 x1 y0 y1 z0 z1 : ℚ)
    (hx : x0 ≤ x1) (hy : y0 ≤ y1) (hz : z0 ≤ z1) :
    FP.fin (1/10000) ≤
      ((AABB.new (.new (.fin x0) (.fin x1)) (.new (.fin y0) (.fin y1))
        (.new (.fin z0) (.fin z1))).pad_to_minimums).x.size ∧
    FP.fin (1/10000) ≤
      ((AABB.new (.new (.fin x0) (.fin x1)) (.new (.fin y0) (.fin y1))
        (.new (.fin z0) (.fin z1))).pad_to_minimums).y.size ∧
    FP.fin (1/10000) ≤
      ((AABB.new (.new (.fin x0) (.fin x1)) (.new (.fin y0) (.fin y1))
        (.new (.fin z0) (.fin z1))).pad_to_minimums).z.size := by
  refine ⟨?_, ?_, ?_⟩
  · exact pad_axis_min_size x0 x1 hx
  · exact pad_axis_min_size y0 y1 hy
  · exact pad_axis_min_size z0 z1 hz

/-- C3 witness: padding the degenerate point box at the origin yields
axes of thickness at least `1e-4`. -/
theorem c3_witness :
    FP.fin (1/10000) ≤
      ((AABB.new (.new (.fin 0) (.fin 0)) (.new (.fin 0) (.fin 0))
        (.new (.fin 0) (.fin 0))).pad_to_minimums).x.size :=
  (c3_pad_to_minimums_widens 0 0 0 0 0 0 le_rfl le_rfl le_rfl).1

/-- Hit record on a surface with normal `(0,0,1)` at the origin, for the
metal-scatter evaluations. -/
def metalRec : HitRecord :=
  ⟨Vec3.ZERO, ⟨0, 0, 1⟩, 0, true, Material.default, 0, 0⟩

/-- C7: Metal scatter clamps the fuzz to at most 1, reflects the unit
incoming direction about the normal, perturbs it by the clamped fuzz
times the random unit draw, and returns `None` exactly when the perturbed
direction's dot product with the normal is non-positive; otherwise it
returns the scattered ray from the hit point with the texture colour as
attenuation. -/
theorem c7_metal_scatter (trig : Trig) (tex : Texture) (fz : ℚ) (seed : Seed)
    (rayIn : Ray) (rec : HitRecord) :
    ((Material.mk tex (.metal fz)).scatter trig seed rayIn rec =
        .ok (none, seed.random_unit.2) ↔
      (rayIn.direction.unit.reflect rec.normal +
        Vec3.smul (min fz 1) seed.random_unit.1).dot rec.normal ≤ 0) ∧
    ((rayIn.direction.unit.reflect rec.normal +
        Vec3.smul (min fz 1) seed.random_unit.1).dot rec.normal > 0 →
      (Material.mk tex (.metal fz)).scatter trig seed rayIn rec =
        .ok (some (⟨rec.point,
          rayIn.direction.unit.reflect rec.normal +
            Vec3.smul (min fz 1) seed.random_unit.1, rayIn.time⟩,
          tex.value trig rec.u rec.v rec.point), seed.random_unit.2)) := by
  have hred : (Material.mk tex (.metal fz)).scatter trig seed rayIn rec =
      (if (rayIn.direction.unit.reflect rec.normal +
            Vec3.smul (min fz 1) seed.random_unit.1).dot rec.normal > 0 then
         .ok (some (⟨rec.point, rayIn.direction.unit.reflect rec.normal +
             Vec3.smul (min fz 1) seed.random_unit.1, rayIn.time⟩,
           tex.value trig rec.u rec.v rec.point), seed.random_unit.2)
       else .ok (none, seed.random_unit.2)) := by
    rw [Material.scatter]
  rw [hred]
  constructor
  · constructor
    · intro h
      split at h
      · simp at h
      · rename_i hc
        exact le_of_not_lt hc
    · intro hle
      rw [if_neg (not_lt.mpr hle)]
  · intro hdot
    rw [if_pos hdot]

/-- C7 witness: a concrete metal scatter with fuzz 2 (clamped to 1): the
reflected direction points away from the surface, so the scatter succeeds
with the texture colour as attenuation. -/
theorem c7_witness :
    (Material.mk (Texture.solidColour Vec3.ONE) (.metal 2)).scatter trig0
      seed0 ⟨Vec3.ZERO, ⟨0, 0, -1⟩, 0⟩ metalRec =
      .ok (some (⟨metalRec.point,
        (Ray.direction ⟨Vec3.ZERO, ⟨0, 0, -1⟩, 0⟩).unit.reflect
            metalRec.normal +
          Vec3.smul (min 2 1) seed0.random_unit.1, 0⟩,
        (Texture.solidColour Vec3.ONE).value trig0 metalRec.u metalRec.v
          metalRec.point), seed0.random_unit.2) :=
  (c7_metal_scatter trig0 (Texture.solidColour Vec3.ONE) 2 seed0
    ⟨Vec3.ZERO, ⟨0, 0, -1⟩, 0⟩ metalRec).2
    (by norm_num [Vec3.unit, Vec3.divs, Vec3.smul, Vec3.dot, Vec3.reflect,
      Vec3.length, Vec3.length_squared, sqrtQ_one, seed0, Seed.random_unit,
      metalRec, Vec3.ZERO])

theorem Interval.from_intervals_empty_left (b : Interval) :
    Interval.from_intervals .EMPTY b = b := by
  cases b
  simp [Interval.from_intervals, Interval.EMPTY, Interval.new]

theorem Interval.from_intervals_empty_right (b : Interval) :
    Interval.from_intervals b .EMPTY = b := by
  cases b
  simp [Interval.from_intervals, Interval.EMPTY, Interval.new]

theorem Interval.from_intervals_assoc (a b c : Interval) :
    Interval.from_intervals (Interval.from_intervals a b) c =
      Interval.from_intervals a (Interval.from_intervals b c) := by
  simp [Interval.from_intervals, Interval.new, min_assoc, max_assoc]

theorem Interval.from_intervals_comm (a b : Interval) :
    Interval.from_intervals a b = Interval.from_intervals b a := by
  simp [Interval.from_intervals, Interval.new, min_comm, max_comm]

theorem AABB.from_aabbs_empty_left (b : AABB) :
    AABB.from_aabbs AABB.EMPTY b = b := by
  cases b
  simp [AABB.from_aabbs, AABB.EMPTY, AABB.new,
    Interval.from_intervals_empty_left]

theorem AABB.from_aabbs_empty_right (b : AABB) :
    AABB.from_aabbs b AABB.EMPTY = b := by
  cases b
  simp [AABB.from_aabbs, AABB.EMPTY, AABB.new,
    Interval.from_intervals_empty_right]

theorem AABB.from_aabbs_assoc (a b c : AABB) :
    AABB.from_aabbs (AABB.from_aabbs a b) c =
      AABB.from_aabbs a (AABB.from_aabbs b c) := by
  simp [AABB.from_aabbs, AABB.new, Interval.from_intervals_assoc]

theorem AABB.from_aabbs_comm (a b : AABB) :
    AABB.from_aabbs a b = AABB.from_aabbs b a := by
  simp [AABB.from_aabbs, AABB.new, Interval.from_intervals_comm a.x,
    Interval.from_intervals_comm a.y, Interval.from_intervals_comm a.z]

theorem Hittable.foldl_aabb_seed (xs : List Hittable) :
    ∀ s : AABB,
      xs.foldl (fun acc l => AABB.from_aabbs acc l.calc_aabb) s =
        AABB.from_aabbs s (Hittable.unionAabb xs) := by
  induction xs with
  | nil =>
      intro s
      simp [Hittable.unionAabb, AABB.from_aabbs_empty_right]
  | cons a xs ih =>
      intro s
      rw [Hittable.unionAabb]
      simp only [List.foldl_cons]
      rw [ih, ih (AABB.from_aabbs AABB.EMPTY a.calc_aabb),
        AABB.from_aabbs_empty_left, AABB.from_aabbs_assoc]

theorem Hittable.unionAabb_cons (a : Hittable) (xs : List Hittable) :
    Hittable.unionAabb (a :: xs) =
      AABB.from_aabbs a.calc_aabb (Hittable.unionAabb xs) := by
  rw [Hittable.unionAabb]
  simp only [List.foldl_cons]
  rw [Hittable.foldl_aabb_seed, AABB.from_aabbs_empty_left]

theorem Hittable.unionAabb_append (xs ys : List Hittable) :
    Hittable.unionAabb (xs ++ ys) =
      AABB.from_aabbs (Hittable.unionAabb xs) (Hittable.unionAabb ys) := by
  rw [Hittable.unionAabb, List.foldl_append, Hittable.foldl_aabb_seed]
  rfl

theorem Hittable.unionAabb_perm {l1 l2 : List Hittable} (h : l1.Perm l2) :
    Hittable.unionAabb l1 = Hittable.unionAabb l2 := by
  induction h with
  | nil => rfl
  | cons a _ ih => rw [Hittable.unionAabb_cons, Hittable.unionAabb_cons, ih]
  | swap a b l =>
      rw [Hittable.unionAabb_cons, Hittable.unionAabb_cons,
        Hittable.unionAabb_cons, Hittable.unionAabb_cons,
        ← AABB.from_aabbs_assoc, ← AABB.from_aabbs_assoc,
        AABB.from_aabbs_comm b.calc_aabb a.calc_aabb]
  | trans _ _ ih1 ih2 => rw [ih1, ih2]

/-- Interval containment (endpoint order). -/
def Interval.subsetI (a b : Interval) : Prop := b.min ≤ a.min ∧ a.max ≤ b.max

instance (a b : Interval) : Decidable (a.subsetI b) := by
  unfold Interval.subsetI
  infer_instance

/-- Componentwise box containment. -/
def AABB.subsetB (a b : AABB) : Prop :=
  a.x.subsetI b.x ∧ a.y.subsetI b.y ∧ a.z.subsetI b.z

instance (a b : AABB) : Decidable (a.subsetB b) := by
  unfold AABB.subsetB
  infer_instance

theorem Interval.subsetI_from_left (a b : Interval) :
    a.subsetI (Interval.from_intervals a b) :=
  ⟨min_le_left _ _, le_max_left _ _⟩

theorem Interval.subsetI_from_right (a b : Interval) :
    b.subsetI (Interval.from_intervals a b) :=
  ⟨min_le_right _ _, le_max_right _ _⟩

theorem Interval.subsetI_trans {a b c : Interval} (h1 : a.subsetI b)
    (h2 : b.subsetI c) : a.subsetI c :=
  ⟨le_trans h2.1 h1.1, le_trans h1.2 h2.2⟩

theorem AABB.subsetB_from_left (a b : AABB) :
    a.subsetB (AABB.from_aabbs a b) :=
  ⟨Interval.subsetI_from_left _ _, Interval.subsetI_from_left _ _,
   Interval.subsetI_from_left _ _⟩

theorem AABB.subsetB_from_right (a b : AABB) :
    b.subsetB (AABB.from_aabbs a b) :=
  ⟨Interval.subsetI_from_right _ _, Interval.subsetI_from_right _ _,
   Interval.subsetI_from_right _ _⟩

theorem AABB.subsetB_trans {a b c : AABB} (h1 : a.subsetB b)
    (h2 : b.subsetB c) : a.subsetB c :=
  ⟨Interval.subsetI_trans h1.1 h2.1, Interval.subsetI_trans h1.2.1 h2.2.1,
   Interval.subsetI_trans h1.2.2 h2.2.2⟩

/-- Every member's box is contained in the list's union box. -/
theorem Hittable.subsetB_unionAabb :
    ∀ (l : List Hittable), ∀ p ∈ l,
      AABB.subsetB p.calc_aabb (Hittable.unionAabb l) := by
  intro l
  induction l with
  | nil => intro p hp; exact absurd hp (List.not_mem_nil p)
  | cons a xs ih =>
      intro p hp
      rw [Hittable.unionAabb_cons]
      rcases List.mem_cons.mp hp with rfl | hmem
      · exact AABB.subsetB_from_left _ _
      · exact AABB.subsetB_trans (ih p hmem) (AABB.subsetB_from_right _ _)

/-- The `assert_eq!` at the end of `Hittable::bvh`: the built node's
`calc_aabb` equals the union box of the input primitives. -/
theorem Hittable.bvh_calc_aabb :
    ∀ (l : List Hittable), l ≠ [] →
      (Hittable.bvh l).calc_aabb = Hittable.unionAabb l
  | [], h => absurd rfl h
  | [a], _ => by
      rw [Hittable.bvh]
      rw [Hittable.calc_aabb, Hittable.unionAabb_cons]
      simp [AABBx2.new, AABBx2.aabb1, Hittable.unionAabb,
        AABB.from_aabbs_empty_right]
  | [a, b], _ => by
      rw [Hittable.bvh]
      rw [Hittable.calc_aabb, Hittable.unionAabb_cons,
        Hittable.unionAabb_cons]
      simp [AABBx2.new, AABBx2.aabb1, AABBx2.aabb2, Hittable.unionAabb,
        AABB.from_aabbs_empty_right, AABB.from_aabbs_assoc]
  | a :: b :: c :: rest, _ => by
      rw [Hittable.bvh]
      rw [Hittable.calc_aabb]
      have hperm := List.mergeSort_perm (a :: b :: c :: rest)
        (fun x y => Hittable.box_comp x y
          ((Hittable.unionAabb (a :: b :: c :: rest)).longest_axis))
      have hlen : ((a :: b :: c :: rest).mergeSort
          (fun x y => Hittable.box_comp x y
            ((Hittable.unionAabb (a :: b :: c :: rest)).longest_axis))).length
          = rest.length + 3 := by
        rw [hperm.length_eq]
        simp only [List.length_cons]
      have h1 : ((a :: b :: c :: rest).mergeSort
          (fun x y => Hittable.box_comp x y
            ((Hittable.unionAabb (a :: b :: c :: rest)).longest_axis))).take
          (((a :: b :: c :: rest).mergeSort
            (fun x y => Hittable.box_comp x y
              ((Hittable.unionAabb (a :: b :: c :: rest)).longest_axis))).length
            / 2) ≠ [] := by
        apply List.ne_nil_of_length_pos
        rw [List.length_take, hlen]
        omega
      have h2 : ((a :: b :: c :: rest).mergeSort
          (fun x y => Hittable.box_comp x y
            ((Hittable.unionAabb (a :: b :: c :: rest)).longest_axis))).drop
          (((a :: b :: c :: rest).mergeSort
            (fun x y => Hittable.box_comp x y
              ((Hittable.unionAabb (a :: b :: c :: rest)).longest_axis))).length
            / 2) ≠ [] := by
        apply List.ne_nil_of_length_pos
        rw [List.length_drop, hlen]
        omega
      rw [show (AABBx2.new
        (Hittable.bvh _).calc_aabb (Hittable.bvh _).calc_aabb).aabb1 =
        (Hittable.bvh _).calc_aabb from rfl]
      rw [show (AABBx2.new
        (Hittable.bvh _).calc_aabb (Hittable.bvh _).calc_aabb).aabb2 =
        (Hittable.bvh _).calc_aabb from rfl]
      rw [Hittable.bvh_calc_aabb _ h1, Hittable.bvh_calc_aabb _ h2,
        ← Hittable.unionAabb_append, List.take_append_drop]
      exact Hittable.unionAabb_perm hperm
termination_by l => l.length
decreasing_by
  all_goals simp [List.length_take, List.length_drop,
    (List.mergeSort_perm _ _).length_eq]
  all_goals omega

/-- Every node `Hittable::bvh` builds caches exactly its children's
`calc_aabb` boxes (the empty box standing for the absent right child). -/
theorem Hittable.bvh_node_cache (l : List Hittable) :
    (∀ x left right, Hittable.bvh l = .bvhNode x left right →
      x = AABBx2.new left.calc_aabb right.calc_aabb) ∧
    (∀ x left, Hittable.bvh l = .bvhLeaf x left →
      x = AABBx2.new left.calc_aabb AABB.empty) := by
  match l with
  | [] =>
      constructor
      · intro x left right h
        rw [Hittable.bvh] at h
        exact Hittable.noConfusion h
      · intro x left h
        rw [Hittable.bvh] at h
        exact Hittable.noConfusion h
  | [a] =>
      constructor
      · intro x left right h
        rw [Hittable.bvh] at h
        exact Hittable.noConfusion h
      · intro x left h
        rw [Hittable.bvh] at h
        injection h with hx hl
        rw [← hx, ← hl]
  | [a, b] =>
      constructor
      · intro x left right h
        rw [Hittable.bvh] at h
        injection h with hx hl hr
        rw [← hx, ← hl, ← hr]
      · intro x left h
        rw [Hittable.bvh] at h
        exact Hittable.noConfusion h
  | a :: b :: c :: rest =>
      constructor
      · intro x left right h
        rw [Hittable.bvh] at h
        injection h with hx hl hr
        rw [← hx, ← hl, ← hr]
      · intro x left h
        rw [Hittable.bvh] at h
        exact Hittable.noConfusion h

/-- C4: for every non-empty primitive list, each BVH node produced by
`Hittable::bvh` caches exactly its children's AABBs, its own cached box
equals the union of its children's boxes (the child's own box when the
right child is absent) and equals the union of the boxes of all the
primitives it was built from — so the `assert_eq!` closing `bvh` always
passes — and every input primitive's bounds are contained in the root
box. -/
theorem c4_bvh_invariant (l : List Hittable) (hne : l ≠ []) :
    (Hittable.bvh l).calc_aabb = Hittable.unionAabb l ∧
    (∀ x left right, Hittable.bvh l = .bvhNode x left right →
      x = AABBx2.new left.calc_aabb right.calc_aabb ∧
      (Hittable.bvh l).calc_aabb =
        AABB.from_aabbs left.calc_aabb right.calc_aabb) ∧
    (∀ x left, Hittable.bvh l = .bvhLeaf x left →
      x = AABBx2.new left.calc_aabb AABB.empty ∧
      (Hittable.bvh l).calc_aabb = left.calc_aabb) ∧
    (∀ p ∈ l, AABB.subsetB p.calc_aabb (Hittable.bvh l).calc_aabb) := by
  refine ⟨Hittable.bvh_calc_aabb l hne, ?_, ?_, ?_⟩
  · intro x left right h
    have hc := (Hittable.bvh_node_cache l).1 x left right h
    refine ⟨hc, ?_⟩
    rw [h, Hittable.calc_aabb, hc]
    rfl
  · intro x left h
    have hc := (Hittable.bvh_node_cache l).2 x left h
    refine ⟨hc, ?_⟩
    rw [h, Hittable.calc_aabb, hc]
    rfl
  · intro p hp
    rw [Hittable.bvh_calc_aabb l hne]
    exact Hittable.subsetB_unionAabb l p hp

/-- C4 witness: the invariant evaluated on a concrete two-sphere list. -/
theorem c4_witness :
    (Hittable.bvh [Hittable.sphere sphereUnit,
      Hittable.sphere sphereFar]).calc_aabb =
    Hittable.unionAabb [Hittable.sphere sphereUnit,
      Hittable.sphere sphereFar] :=
  (c4_bvh_invariant [Hittable.sphere sphereUnit, Hittable.sphere sphereFar]
    (List.cons_ne_nil _ _)).1

/-- C9 witness: the mutators evaluated on the concrete camera `cam0`. -/
theorem c9_witness :
    (cam0.change_pitch_yaw_by trig0 1 0).samples = 0 ∧
    (cam0.move_by ⟨1, 0, 0⟩).samples = 0 ∧
    (cam0.move_by Vec3.ZERO).samples = cam0.samples ∧
    (cam0.set_exposure trig0 2).samples = cam0.samples ∧
    (cam0.set_exposure trig0 2).acc_colours = cam0.acc_colours :=
  have h := c9_mutators_and_sample_counter trig0 cam0 1 0 2 ⟨1, 0, 0⟩
  ⟨h.1 (Or.inl (by norm_num)), h.2.1 (by decide), h.2.2.1, h.2.2.2.1,
   h.2.2.2.2.1⟩

end Raytrace
